import Mathlib

/-!
# Verification of the Mindwave serial-protocol decoder (`src/mindwave.py`)

Shallow embedding of the protocol state machine of `MindwaveAdapter`:
synchronization (`_wait_for_ready_state`), packet framing with checksum
(`_read_packet`), the tagged payload decoder (`read_default_value`,
`raw_wave`, `asic_eeg`, `get_payload_values`) and the reading stream
(`values`).

Modelling conventions:
* A byte is a `Nat` (value 0–255).  The byte source is a `List Nat` of the
  bytes that will arrive before the source closes; reading from an
  exhausted list models "source closed / blocked" and terminates
  processing.
* The Python code hex-encodes every byte it reads (`_read` / `encode`) and
  stores payload bytes as two-character hex strings.  `int(s, 16)` on such
  a string recovers the byte value, so it is modelled as the identity.
  `int(s)` (base 10, used on tag bytes and on the inline length bytes of
  `raw_wave` / `asic_eeg`) is modelled by `pyIntDec`: it succeeds exactly
  when both hex digits of the byte are decimal digits, returning the
  number the two digits denote in base 10, and fails (`ValueError`)
  otherwise.
* Python exceptions are an explicit error type `PyErr`; indexing a list
  out of range is `IndexError`, a failed dict lookup is `KeyError`.
* The decode loop of `get_payload_values` is written with explicit fuel;
  that the canonical fuel `length + 1` always suffices is proved as the
  termination claim.
-/

deriving instance DecidableEq for Except

/-- Python exceptions raised by the decoder. -/
inductive PyErr where
  | checksumFailed : PyErr
  | keyError : Nat → PyErr
  | valueError : PyErr
  | indexError : PyErr
deriving DecidableEq

/-- A value stored in a decoded ReadingSet: an integer, or the nested
mapping produced for the composite `asic_eeg` field. -/
inductive PyValue where
  | int : Int → PyValue
  | dict : List (String × Nat) → PyValue
deriving DecidableEq

/-- Python `int(s)` (base 10) applied to the two-character lowercase hex
string of byte `b` (as produced by `self.encode`): succeeds giving
`10 * hi + lo` when both hex digits `hi = b / 16`, `lo = b % 16` are
decimal digits, raises `ValueError` (here: `none`) when either digit is
one of `a`–`f`. -/
def pyIntDec (b : Nat) : Option Nat :=
  if b / 16 < 10 ∧ b % 16 < 10 then some (10 * (b / 16) + b % 16) else none

/-- Python dict assignment `d[k] = v`: replaces the value in place (keeping
the key's position) when the key is present, appends otherwise. -/
def dictInsert {α : Type} (d : List (String × α)) (k : String) (v : α) :
    List (String × α) :=
  match d with
  | [] => [(k, v)]
  | (k0, v0) :: rest =>
      if k0 = k then (k, v) :: rest else (k0, v0) :: dictInsert rest k v

/-- `~x & 0xFF` for `0 ≤ x ≤ 255`: in Python `~x = -x - 1`, and
`(-x - 1) & 0xFF = 255 - x` on that range. -/
def complement8 (x : Nat) : Nat := 255 - x

/-- The checksum `_read_packet` computes for a payload (lines 59–67):
sum of the byte values, masked to 8 bits (`& 0xFF`, i.e. `% 256` on
non-negative values), then complemented and masked again. -/
def checksum8 (payload : List Nat) : Nat := complement8 (payload.sum % 256)

/-- `_wait_for_ready_state` (lines 79–92).  Each loop iteration reads two
fresh bytes `a`, `b`; on mismatch it reads one further byte (the values
assigned to `a` and `b` in the mismatch branch are overwritten at the top
of the next iteration, so each failed iteration consumes exactly three
bytes).  Returns the remaining stream on success, `none` when the stream
is exhausted while scanning. -/
def waitForReadyState : List Nat → Option (List Nat)
  | a :: b :: rest =>
      if a = 170 ∧ b = 170 then some rest
      else
        match rest with
        | _ :: rest2 => waitForReadyState rest2
        | [] => none
  | _ => none

/-- `_read_packet` (lines 57–77): read `len` payload bytes and one checksum
byte from the stream; raise `ChecksumFailed` when the computed checksum
differs from the read one (the bytes stay consumed either way); `none`
when the stream has fewer than `len + 1` bytes. -/
def readPacket (s : List Nat) (len : Nat) :
    Option (Except PyErr (List Nat) × List Nat) :=
  if len + 1 ≤ s.length then
    match s.drop len with
    | c :: rest =>
        if checksum8 (s.take len) ≠ c then
          some (.error .checksumFailed, rest)
        else
          some (.ok (s.take len), rest)
    | [] => none
  else none

/-- `_big_endian` (lines 94–95): `b[0] * 2^16 + b[1] * 2^8 + b[2]`;
indexing raises `IndexError` when fewer than three bytes are given. -/
def bigEndian : List Nat → Except PyErr Nat
  | b0 :: b1 :: b2 :: _ => .ok (b0 * 2 ^ 16 + b1 * 2 ^ 8 + b2)
  | _ => .error .indexError

/-- The class-level `waves` name list (lines 13–16). -/
def waves : List String :=
  ["delta", "theta", "low_alpha", "high_alpha",
   "low_beta", "high_beta", "low_gamma", "mid_gamma"]

/-- The `for count in range(0, 8)` loop of `asic_eeg` (lines 132–139):
for each wave name take the next three payload bytes (a Python slice,
which clips at the end of the list), combine them with `_big_endian`
and store the value under the wave's name. -/
def asicLoop (payload : List Nat) :
    List String → Nat → List (String × Nat) → Except PyErr (List (String × Nat))
  | [], _, acc => .ok acc
  | w :: ws, start, acc =>
      match bigEndian ((payload.drop start).take 3) with
      | .error e => .error e
      | .ok v => asicLoop payload ws (start + 3) (dictInsert acc w v)

/-- `read_default_value` (lines 97–99): the byte after the tag, parsed with
`int(_, 16)` (the byte value itself); next index is `i + 2`. -/
def read_default_value (payload : List Nat) (i : Nat) :
    Except PyErr (PyValue × Nat) :=
  match payload.get? (i + 1) with
  | some v => .ok (.int v, i + 2)
  | none => .error .indexError

/-- `raw_wave` (lines 101–116): `int(payload[i+1])` is a base-10 parse of
the hex string, so it raises `ValueError` on hex-letter digits; a parsed
length other than 2 raises `ValueError` explicitly; the two data bytes
come from the slice `payload[i+2 : i+2+length]` (tuple unpacking of a
slice of the wrong size also raises `ValueError`); the returned index is
`end + 1 = i + 2 + length + 1`. -/
def raw_wave (payload : List Nat) (i : Nat) : Except PyErr (PyValue × Nat) :=
  match payload.get? (i + 1) with
  | none => .error .indexError
  | some lb =>
      match pyIntDec lb with
      | none => .error .valueError
      | some length =>
          if length ≠ 2 then .error .valueError
          else
            match (payload.drop (i + 2)).take length with
            | [a, b] =>
                let value : Int := a * 256 + b
                let value := if 32768 ≤ value then value - 65536 else value
                .ok (.int value, i + 2 + length + 1)
            | _ => .error .valueError

/-- `asic_eeg` (lines 118–141): `int(payload[i+1])` decimal-parses the
declared length byte (raising `ValueError` on hex-letter digits) and then
discards the result, using the fixed length 24; the eight 3-byte groups
start at `i + 2`; the returned index is `(i + 2) + 24`. -/
def asic_eeg (payload : List Nat) (i : Nat) : Except PyErr (PyValue × Nat) :=
  match payload.get? (i + 1) with
  | none => .error .indexError
  | some lb =>
      match pyIntDec lb with
      | none => .error .valueError
      | some _ =>
          match asicLoop payload waves (i + 2) [] with
          | .error e => .error e
          | .ok result => .ok (.dict result, i + 2 + 24)

/-- The three decode routines registered in `self.codes`. -/
inductive Routine where
  | default_value : Routine
  | raw : Routine
  | asic : Routine
deriving DecidableEq

/-- The `self.codes` dispatch dict (lines 23–30): field code to
(field name, routine); a missing key is a `KeyError`. -/
def codes (c : Nat) : Option (String × Routine) :=
  if c = 2 then some ("poor_signal", .default_value)
  else if c = 4 then some ("attention", .default_value)
  else if c = 5 then some ("meditation", .default_value)
  else if c = 16 then some ("blink_strength", .default_value)
  else if c = 80 then some ("raw_wave", .raw)
  else if c = 83 then some ("asic_eeg", .asic)
  else none

/-- Dispatch a routine value to its function. -/
def runRoutine : Routine → List Nat → Nat → Except PyErr (PyValue × Nat)
  | .default_value => read_default_value
  | .raw => raw_wave
  | .asic => asic_eeg

/-- The `while i < length` loop of `get_payload_values` (lines 143–153),
with explicit fuel: read the tag byte at `i` (`IndexError` past the end),
parse it with base-10 `int` (`ValueError` on hex-letter digits), look it
up in `codes` (`KeyError` when absent), run the routine, store the value
under the field name and continue at the returned index. -/
def decodeLoop (payload : List Nat) (plen : Nat) :
    Nat → List (String × PyValue) → Nat →
    Option (Except PyErr (List (String × PyValue)))
  | 0, _, _ => none
  | fuel + 1, result, i =>
      if i < plen then
        match payload.get? i with
        | none => some (.error .indexError)
        | some cb =>
            match pyIntDec cb with
            | none => some (.error .valueError)
            | some c =>
                match codes c with
                | none => some (.error (.keyError c))
                | some (name, r) =>
                    match runRoutine r payload i with
                    | .error e => some (.error e)
                    | .ok (v, i2) =>
                        decodeLoop payload plen fuel (dictInsert result name v) i2
      else some (.ok result)

/-- `get_payload_values` (lines 143–153), run with fuel `plen + 1`
(sufficient: the index strictly increases each iteration). -/
def get_payload_values (payload : List Nat) (plen : Nat) :
    Option (Except PyErr (List (String × PyValue))) :=
  decodeLoop payload plen (plen + 1) [] 0

/-- Python 2 semantics of `result.keys() == ['raw_wave']` (line 171):
`keys()` is a list, compared elementwise in insertion order. -/
def py2ListEq (a b : List String) : Bool := a == b

/-- Python 3 semantics of `result.keys() == ['raw_wave']` (line 171):
`keys()` is a `dict_keys` view and comparing a view with a list always
yields `False`. -/
def py3ViewListEq (_a _b : List String) : Bool := false

/-- The `values` generator (lines 155–176), with explicit fuel and
parameterized over the semantics of the `keys() == ['raw_wave']`
comparison.  Returns the list of yielded ReadingSets together with the
exception (if any) that escaped the generator; `none` as the second
component means the loop ended because the source was exhausted (or fuel
ran out).  The `try` block catches exactly `ChecksumFailed` and restarts
the loop; a declared length above 169 restarts the loop without touching
the payload bytes. -/
def valuesLoop (keysEq : List String → List String → Bool) (skipRaw : Bool) :
    Nat → List Nat → List (List (String × PyValue)) × Option PyErr
  | 0, _ => ([], none)
  | fuel + 1, s =>
      match waitForReadyState s with
      | none => ([], none)
      | some s1 =>
          match s1 with
          | [] => ([], none)
          | lb :: s2 =>
              if 169 < lb then valuesLoop keysEq skipRaw fuel s2
              else
                match readPacket s2 lb with
                | none => ([], none)
                | some (.error e, s3) =>
                    if e = .checksumFailed then valuesLoop keysEq skipRaw fuel s3
                    else ([], some e)
                | some (.ok payload, s3) =>
                    match get_payload_values payload lb with
                    | none => ([], none)
                    | some (.error e) =>
                        if e = .checksumFailed then valuesLoop keysEq skipRaw fuel s3
                        else ([], some e)
                    | some (.ok result) =>
                        if skipRaw && keysEq (result.map Prod.fst) ["raw_wave"] then
                          valuesLoop keysEq skipRaw fuel s3
                        else
                          (result :: (valuesLoop keysEq skipRaw fuel s3).1,
                           (valuesLoop keysEq skipRaw fuel s3).2)

/-- The serial-port configuration handed to `serial.Serial` (line 20). -/
structure SerialConfig where
  port : String
  baudrate : Nat
  timeout : Nat
deriving DecidableEq

/-- The state `__init__` establishes (lines 18–21). -/
structure AdapterConfig where
  sensor : SerialConfig
  skip_raw_wave : Bool
deriving DecidableEq

/-- `__init__` (lines 18–21): `serial.Serial(port, baudrate, timeout=10)` —
the `timeout` literal on line 20 is the constant 10, not the parameter.
The Python defaults are `port='/dev/rfcomm0'`, `baudrate=57600`,
`timeout=10`, `skip_raw_wave=True`. -/
def mindwave_init (port : String) (baudrate : Nat) (timeout : Nat)
    (skip_raw_wave : Bool) : AdapterConfig :=
  ⟨⟨port, baudrate, 10⟩, skip_raw_wave⟩

/-! ## Helper lemmas -/

/-- Replacing the element at a valid index changes a list's sum by the
difference between the new and the old value. -/
theorem sum_set_add (l : List Nat) (j v b : Nat) (h : l.get? j = some b) :
    (l.set j v).sum + b = l.sum + v := by
  induction l generalizing j with
  | nil => simp at h
  | cons a t ih =>
    cases j with
    | zero =>
      simp only [List.get?] at h
      cases h
      simp only [List.set, List.sum_cons]
      omega
    | succ j =>
      have := ih j h
      simp only [List.set, List.sum_cons]
      omega

/-- Flipping a bit changes a natural number. -/
theorem xor_two_pow_ne (b k : Nat) : b ^^^ 2 ^ k ≠ b := by
  intro h
  have h2 : b ^^^ (b ^^^ 2 ^ k) = b ^^^ b := congrArg (b ^^^ ·) h
  rw [← Nat.xor_assoc, Nat.xor_self, Nat.zero_xor] at h2
  exact Nat.pos_iff_ne_zero.mp (Nat.two_pow_pos k) h2

/-- Unfolding `readPacket` on a stream laid out as payload, checksum byte,
remainder. -/
theorem readPacket_append (B : List Nat) (c : Nat) (rest : List Nat) :
    readPacket (B ++ c :: rest) B.length =
      some (if checksum8 B ≠ c then .error .checksumFailed else .ok B, rest) := by
  have hlen : B.length + 1 ≤ (B ++ c :: rest).length := by
    simp [List.length_append]
  simp only [readPacket, if_pos hlen, List.drop_left, List.take_left]
  by_cases hc : checksum8 B ≠ c <;> simp [hc]

/-- A successful `readPacket` call means the stream starts with the
returned payload followed by exactly its checksum. -/
theorem readPacket_ok_decomp (s : List Nat) (len : Nat) (payload : List Nat)
    (s3 : List Nat) (h : readPacket s len = some (.ok payload, s3)) :
    payload.length = len ∧ s = payload ++ checksum8 payload :: s3 := by
  unfold readPacket at h
  by_cases hlen : len + 1 ≤ s.length
  · rw [if_pos hlen] at h
    cases hdrop : s.drop len with
    | nil => rw [hdrop] at h; simp at h
    | cons c rest =>
      rw [hdrop] at h
      have h2 : (if checksum8 (s.take len) ≠ c then
            some ((.error .checksumFailed : Except PyErr (List Nat)), rest)
          else some (.ok (s.take len), rest)) = some (.ok payload, s3) := h
      by_cases hc : checksum8 (s.take len) ≠ c
      · rw [if_pos hc] at h2; simp at h2
      · rw [if_neg hc] at h2
        push_neg at hc
        simp only [Option.some.injEq, Prod.mk.injEq, Except.ok.injEq] at h2
        obtain ⟨hp, hs3⟩ := h2
        subst hs3
        subst hp
        constructor
        · simp [List.length_take]; omega
        · conv_lhs => rw [← List.take_append_drop len s]
          rw [hdrop, hc]
  · rw [if_neg hlen] at h; simp at h

/-- A `readPacket` call that raises leaves the stream at a suffix of its
input (the packet's bytes are consumed). -/
theorem readPacket_err_suffix (s : List Nat) (len : Nat) (e : PyErr)
    (s3 : List Nat) (h : readPacket s len = some (.error e, s3)) :
    ∃ t, s = t ++ s3 := by
  unfold readPacket at h
  by_cases hlen : len + 1 ≤ s.length
  · rw [if_pos hlen] at h
    cases hdrop : s.drop len with
    | nil => rw [hdrop] at h; simp at h
    | cons c rest =>
      rw [hdrop] at h
      have h2 : (if checksum8 (s.take len) ≠ c then
            some ((.error .checksumFailed : Except PyErr (List Nat)), rest)
          else some (.ok (s.take len), rest)) = some (.error e, s3) := h
      by_cases hc : checksum8 (s.take len) ≠ c
      · rw [if_pos hc] at h2
        simp only [Option.some.injEq, Prod.mk.injEq] at h2
        obtain ⟨_, hrest⟩ := h2
        subst hrest
        refine ⟨s.take len ++ [c], ?_⟩
        conv_lhs => rw [← List.take_append_drop len s]
        rw [hdrop]
        simp
      · rw [if_neg hc] at h2; simp at h2
  · rw [if_neg hlen] at h; simp at h

/-- Whenever `_wait_for_ready_state` returns, the stream it leaves behind
is a suffix of the one it was given. -/
theorem waitForReadyState_suffix (s s1 : List Nat)
    (h : waitForReadyState s = some s1) : ∃ t, s = t ++ s1 := by
  have main : ∀ n (s : List Nat), s.length ≤ n → ∀ s1,
      waitForReadyState s = some s1 → ∃ t, s = t ++ s1 := by
    intro n
    induction n with
    | zero =>
      intro s hs s1 h
      have hnil : s = [] := List.length_eq_zero.mp (Nat.le_zero.mp hs)
      subst hnil
      exact absurd (show (none : Option (List Nat)) = some s1 from h) (by simp)
    | succ n ih =>
      intro s hs s1 h
      cases s with
      | nil => exact absurd (show (none : Option (List Nat)) = some s1 from h) (by simp)
      | cons a tail =>
        cases tail with
        | nil => exact absurd (show (none : Option (List Nat)) = some s1 from h) (by simp)
        | cons b rest =>
          cases rest with
          | nil =>
            have h2 : (if a = 170 ∧ b = 170 then some ([] : List Nat)
                else none) = some s1 := h
            by_cases hab : a = 170 ∧ b = 170
            · rw [if_pos hab] at h2
              cases h2
              exact ⟨[a, b], by simp⟩
            · rw [if_neg hab] at h2
              simp at h2
          | cons c rest2 =>
            have h2 : (if a = 170 ∧ b = 170 then some (c :: rest2)
                else waitForReadyState rest2) = some s1 := h
            by_cases hab : a = 170 ∧ b = 170
            · rw [if_pos hab] at h2
              cases h2
              exact ⟨[a, b], by simp⟩
            · rw [if_neg hab] at h2
              have hlen2 : rest2.length ≤ n := by
                simp only [List.length_cons] at hs; omega
              obtain ⟨t, ht⟩ := ih rest2 hlen2 s1 h2
              exact ⟨a :: b :: c :: t, by simp [ht]⟩
  exact main s.length s le_rfl s1 h

/-! ## Claim theorems -/

/-- Claim C1 (code bug evidence): with no garbage before the sync marker
`_wait_for_ready_state` returns right after the second `0xAA`, but a
one-byte prefix makes the recovery path consume the marker itself: on the
stream `01 AA AA 09 09 09` the function consumes everything (the pair
check only ever looks at offsets 0–1, 3–4, …) and never returns at the
marker, instead of stopping with `[9, 9, 9]` unread. -/
theorem waitForReadyState_misses_overlapped_sync :
    waitForReadyState [170, 170, 9, 9, 9] = some [9, 9, 9] ∧
    waitForReadyState [1, 170, 170, 9, 9, 9] = none := by decide

/-- Claim C2: `_read_packet` accepts a payload `B` exactly when the
trailing checksum byte is `(~(sum B & 0xFF)) & 0xFF`; on mismatch it
raises `ChecksumFailed` with the bytes consumed; and flipping any single
bit of any payload byte while keeping a previously valid trailing
checksum byte fixed makes it raise `ChecksumFailed`. -/
theorem read_packet_checksum_spec (B : List Nat) (c : Nat) (rest : List Nat)
    (hB : ∀ x ∈ B, x < 256) :
    (readPacket (B ++ c :: rest) B.length = some (.ok B, rest) ↔ c = checksum8 B) ∧
    (c ≠ checksum8 B →
      readPacket (B ++ c :: rest) B.length = some (.error .checksumFailed, rest)) ∧
    (∀ j k b, B.get? j = some b → k < 8 → c = checksum8 B →
      readPacket (B.set j (b ^^^ 2 ^ k) ++ c :: rest)
          (B.set j (b ^^^ 2 ^ k)).length =
        some (.error .checksumFailed, rest)) := by
  refine ⟨?_, ?_, ?_⟩
  · rw [readPacket_append]
    by_cases hc : checksum8 B = c
    · simp [hc]
    · have hns : ¬c = checksum8 B := fun hx => hc hx.symm
      simp [hc, hns]
  · intro hne
    rw [readPacket_append, if_pos (Ne.symm hne)]
  · intro j k b hj hk hc
    rw [readPacket_append]
    rw [if_pos ?hne]
    case hne =>
      intro heq
      have hsum := sum_set_add B j (b ^^^ 2 ^ k) b hj
      have hblt : b < 256 := hB b (List.get?_mem hj)
      have h2k : 2 ^ k < 256 := by
        calc 2 ^ k ≤ 2 ^ 7 := Nat.pow_le_pow_right (by norm_num) (by omega)
        _ < 256 := by norm_num
      have hb2lt : b ^^^ 2 ^ k < 256 := by
        have hx := Nat.xor_lt_two_pow (n := 8)
          (show b < 2 ^ 8 by omega) (show 2 ^ k < 2 ^ 8 by omega)
        omega
      have hbne : b ^^^ 2 ^ k ≠ b := xor_two_pow_ne b k
      rw [hc] at heq
      simp only [checksum8, complement8] at heq
      omega

/-- Witness for `read_packet_checksum_spec` at payload `[2, 100]` with its
valid checksum byte 153, flipping bit 0 of byte 0. -/
theorem read_packet_checksum_spec_witness :
    readPacket ([2, 100] ++ 153 :: []) (List.length [2, 100]) =
      some (.ok [2, 100], []) ∧
    readPacket ([2, 100].set 0 (2 ^^^ 2 ^ 0) ++ 153 :: [])
        ([2, 100].set 0 (2 ^^^ 2 ^ 0)).length =
      some (.error .checksumFailed, []) := by
  constructor
  · exact ((read_packet_checksum_spec [2, 100] 153 [] (by decide)).1).mpr (by decide)
  · exact (read_packet_checksum_spec [2, 100] 153 [] (by decide)).2.2 0 0 2
      (by decide) (by decide) (by decide)

/-- Claim C4 (code bug evidence): `asic_eeg` does not fully ignore the
declared length byte — line 124 decimal-parses its hex string before the
value is discarded.  With declared length byte `0x0A` the parse of `'0a'`
raises `ValueError` and no composite value is decoded, while a byte whose
hex digits are decimal (here `0x18`, the value 24 the device sends, whose
string `'18'` parses to 18) is discarded as documented and the decode
yields the eight wave keys and advances to index 26. -/
theorem asic_eeg_raises_on_unparseable_length_byte :
    asic_eeg (131 :: 10 :: List.replicate 24 0) 0 = .error .valueError ∧
    pyIntDec 10 = none ∧
    asic_eeg (131 :: 24 :: List.replicate 24 1) 0 =
      .ok (.dict [("delta", 65793), ("theta", 65793), ("low_alpha", 65793),
        ("high_alpha", 65793), ("low_beta", 65793), ("high_beta", 65793),
        ("low_gamma", 65793), ("mid_gamma", 65793)], 26) := by decide

/-- Claim C5: `raw_wave` decodes its two data bytes as a big-endian signed
16-bit integer — the result is congruent to `high * 256 + low` modulo
65536 and lies in `[-32768, 32767]` — with the three concrete sign cases,
and it raises `ValueError` whenever the inline length byte after the tag
is not 2 (an explicit raise when the decimal parse yields a value other
than 2, and a parse failure when the byte's hex string has letter
digits). -/
theorem raw_wave_signed16_spec :
    raw_wave [128, 2, 127, 255] 0 = .ok (.int 32767, 5) ∧
    raw_wave [128, 2, 128, 0] 0 = .ok (.int (-32768), 5) ∧
    raw_wave [128, 2, 255, 255] 0 = .ok (.int (-1), 5) ∧
    (∀ (payload : List Nat) (i : Nat) (a b : Nat), payload.get? (i + 1) = some 2 →
      (payload.drop (i + 2)).take 2 = [a, b] → a < 256 → b < 256 →
      ∃ v : Int, raw_wave payload i = .ok (.int v, i + 5) ∧
        v % 65536 = ((a : Int) * 256 + (b : Int)) % 65536 ∧ -32768 ≤ v ∧ v < 32768) ∧
    (∀ payload i lb, payload.get? (i + 1) = some lb → lb ≠ 2 →
      raw_wave payload i = .error .valueError) := by
  refine ⟨by decide, by decide, by decide, ?_, ?_⟩
  · intro payload i a b hget hslice ha hb
    have hrun : raw_wave payload i =
        .ok (.int (if 32768 ≤ ((a : Int) * 256 + (b : Int)) then
            (a : Int) * 256 + (b : Int) - 65536
          else (a : Int) * 256 + (b : Int)), i + 2 + 2 + 1) := by
      simp only [raw_wave, hget, show pyIntDec 2 = some 2 from rfl, hslice]
      norm_num
    refine ⟨if 32768 ≤ ((a : Int) * 256 + (b : Int)) then
        (a : Int) * 256 + (b : Int) - 65536
      else (a : Int) * 256 + (b : Int), hrun, ?_, ?_, ?_⟩
    · split_ifs with hv
      · omega
      · rfl
    · split_ifs with hv <;> omega
    · split_ifs with hv <;> omega
  · intro payload i lb hget hne
    simp only [raw_wave, hget]
    cases hp : pyIntDec lb with
    | none => simp
    | some L =>
      have hL : L ≠ 2 := by
        intro h2
        subst h2
        unfold pyIntDec at hp
        by_cases hd : lb / 16 < 10 ∧ lb % 16 < 10
        · rw [if_pos hd] at hp
          simp only [Option.some.injEq] at hp
          omega
        · rw [if_neg hd] at hp
          simp at hp
      simp [hL]

/-- Witness for `raw_wave_signed16_spec`: data bytes 0x00 0x07 decode to 7,
and length byte 3 raises. -/
theorem raw_wave_signed16_spec_witness :
    (∃ v : Int, raw_wave [128, 2, 0, 7] 0 = .ok (.int v, 0 + 5) ∧
      v % 65536 = (((0 : Nat) : Int) * 256 + ((7 : Nat) : Int)) % 65536 ∧
      -32768 ≤ v ∧ v < 32768) ∧
    raw_wave [128, 3, 0, 0] 0 = .error .valueError := by
  constructor
  · exact raw_wave_signed16_spec.2.2.2.1 [128, 2, 0, 7] 0 0 7
      (by decide) (by decide) (by decide) (by decide)
  · exact raw_wave_signed16_spec.2.2.2.2 [128, 3, 0, 0] 0 3
      (by decide) (by decide)

/-- Claim C8 (code bug evidence): line 20 opens the serial port with the
literal `timeout=10`, not the constructor's `timeout` argument — calling
with `timeout = 5` still yields a sensor timeout of 10, while `port` and
`baudrate` are passed through. -/
theorem init_hardcodes_timeout :
    (mindwave_init "/dev/rfcomm0" 57600 5 true).sensor.timeout = 10 ∧
    (mindwave_init "/dev/rfcomm0" 57600 5 true).sensor.port = "/dev/rfcomm0" ∧
    (mindwave_init "/dev/rfcomm0" 57600 5 true).sensor.baudrate = 57600 :=
  ⟨rfl, rfl, rfl⟩

/-- Claim C10: a payload consisting of a single recognized scalar tag with
its declared length 1 (the value byte is missing) makes the decoder index
past the end of the payload: `get_payload_values` fails with the
out-of-bounds `IndexError`, which is neither the checksum error nor the
unknown-field-code error. -/
theorem decode_oob_on_truncated_scalar :
    get_payload_values [2] 1 = some (.error .indexError) ∧
    PyErr.indexError ≠ PyErr.checksumFailed ∧
    (∀ c, PyErr.indexError ≠ PyErr.keyError c) := by
  refine ⟨by decide, by decide, ?_⟩
  intro c
  simp

/-- `read_default_value` advances the index by exactly 2 on success. -/
theorem read_default_value_ok_index (p : List Nat) (i : Nat) (v : PyValue)
    (i2 : Nat) (h : read_default_value p i = .ok (v, i2)) : i2 = i + 2 := by
  unfold read_default_value at h
  cases hg : p.get? (i + 1) with
  | none => rw [hg] at h; simp at h
  | some x =>
    rw [hg] at h
    simp only [Except.ok.injEq, Prod.mk.injEq] at h
    exact h.2.symm

/-- `raw_wave` advances the index by exactly 5 on success. -/
theorem raw_wave_ok_index (p : List Nat) (i : Nat) (v : PyValue)
    (i2 : Nat) (h : raw_wave p i = .ok (v, i2)) : i2 = i + 5 := by
  unfold raw_wave at h
  split at h
  · simp at h
  · split at h
    · simp at h
    · rename_i lb L hp
      split at h
      · simp at h
      · rename_i hL
        push_neg at hL
        split at h
        · simp only [Except.ok.injEq, Prod.mk.injEq] at h
          omega
        · simp at h

/-- `asic_eeg` advances the index by exactly 26 on success. -/
theorem asic_eeg_ok_index (p : List Nat) (i : Nat) (v : PyValue)
    (i2 : Nat) (h : asic_eeg p i = .ok (v, i2)) : i2 = i + 26 := by
  unfold asic_eeg at h
  split at h
  · simp at h
  · split at h
    · simp at h
    · split at h
      · simp at h
      · simp only [Except.ok.injEq, Prod.mk.injEq] at h
        omega

/-- Every decode routine returns an index at least 2 past its input. -/
theorem runRoutine_ok_advance (r : Routine) (p : List Nat) (i : Nat)
    (v : PyValue) (i2 : Nat) (h : runRoutine r p i = .ok (v, i2)) :
    i + 2 ≤ i2 := by
  cases r with
  | default_value =>
    have := read_default_value_ok_index p i v i2 h
    omega
  | raw =>
    have := raw_wave_ok_index p i v i2 h
    omega
  | asic =>
    have := asic_eeg_ok_index p i v i2 h
    omega

/-- Fuel `plen - i + 1` suffices for the decode loop: the index strictly
increases each iteration. -/
theorem decodeLoop_isSome (payload : List Nat) (plen : Nat) :
    ∀ fuel i result, plen ≤ i + fuel →
      decodeLoop payload plen (fuel + 1) result i ≠ none := by
  intro fuel
  induction fuel with
  | zero =>
    intro i result h
    unfold decodeLoop
    rw [if_neg (show ¬i < plen by omega)]
    simp
  | succ fuel ih =>
    intro i result h
    unfold decodeLoop
    by_cases hi : i < plen
    · rw [if_pos hi]
      cases hg : payload.get? i with
      | none => simp
      | some cb =>
        simp only [hg]
        cases hp : pyIntDec cb with
        | none => simp
        | some c =>
          simp only [hp]
          cases hcodes : codes c with
          | none => simp
          | some nr =>
            obtain ⟨name, r⟩ := nr
            simp only [hcodes]
            cases hr : runRoutine r payload i with
            | error e => simp
            | ok vi =>
              obtain ⟨v, i2⟩ := vi
              simp only [hr]
              have hadv := runRoutine_ok_advance r payload i v i2 hr
              exact ih i2 (dictInsert result name v) (by omega)
    · rw [if_neg hi]; simp

/-- Claim C9: the decode loop of `get_payload_values` terminates — each
routine returns a strictly larger index on success (the scalar routine
advances by 2, the raw-wave routine by 5, the composite routine by 26),
so the built-in fuel `length + 1` is never exhausted. -/
theorem decode_loop_termination :
    (∀ (p : List Nat) (i : Nat) (v : PyValue) (i2 : Nat),
      read_default_value p i = .ok (v, i2) → i2 = i + 2) ∧
    (∀ (p : List Nat) (i : Nat) (v : PyValue) (i2 : Nat),
      raw_wave p i = .ok (v, i2) → i2 = i + 5) ∧
    (∀ (p : List Nat) (i : Nat) (v : PyValue) (i2 : Nat),
      asic_eeg p i = .ok (v, i2) → i2 = i + 26) ∧
    (∀ (p : List Nat) (plen : Nat), get_payload_values p plen ≠ none) :=
  ⟨read_default_value_ok_index, raw_wave_ok_index, asic_eeg_ok_index,
   fun p plen => decodeLoop_isSome p plen plen 0 [] (by omega)⟩

/-- Witness for `decode_loop_termination` on the three routines at
concrete inputs. -/
theorem decode_loop_termination_witness :
    (2 : Nat) = 0 + 2 ∧ (5 : Nat) = 0 + 5 ∧ (26 : Nat) = 0 + 26 :=
  ⟨decode_loop_termination.1 [2, 7] 0 (.int 7) 2 (by decide),
   decode_loop_termination.2.1 [128, 2, 0, 7] 0 (.int 7) 5 (by decide),
   decode_loop_termination.2.2.1 (131 :: 24 :: List.replicate 24 1) 0
     (.dict [("delta", 65793), ("theta", 65793), ("low_alpha", 65793),
       ("high_alpha", 65793), ("low_beta", 65793), ("high_beta", 65793),
       ("low_gamma", 65793), ("mid_gamma", 65793)]) 26 (by decide)⟩

/-- Claim C7: the scalar codes 2, 4, 5, 16 map to poor_signal, attention,
meditation, blink_strength; a code is recognized exactly when it lies in
the set 2, 4, 5, 16, 80, 83; at a scalar tag the loop stores the byte
after the tag under the field name and continues at exactly `i + 2`; an
unrecognized code stops decode with `KeyError`; and that error propagates
out of the stream loop — `values` ends with it, having yielded nothing
from that iteration, rather than catching it. -/
theorem decode_scalar_and_unknown_code_spec :
    (codes 2 = some ("poor_signal", Routine.default_value) ∧
     codes 4 = some ("attention", Routine.default_value) ∧
     codes 5 = some ("meditation", Routine.default_value) ∧
     codes 16 = some ("blink_strength", Routine.default_value)) ∧
    (∀ c, codes c = none ↔ ¬(c = 2 ∨ c = 4 ∨ c = 5 ∨ c = 16 ∨ c = 80 ∨ c = 83)) ∧
    (∀ (payload : List Nat) (plen fuel : Nat) (result : List (String × PyValue))
      (i cb c b : Nat) (name : String),
      payload.get? i = some cb → pyIntDec cb = some c →
      codes c = some (name, Routine.default_value) →
      payload.get? (i + 1) = some b → i < plen →
      decodeLoop payload plen (fuel + 1) result i =
        decodeLoop payload plen fuel (dictInsert result name (.int b)) (i + 2)) ∧
    (∀ (payload : List Nat) (plen fuel : Nat) (result : List (String × PyValue))
      (i cb c : Nat),
      payload.get? i = some cb → pyIntDec cb = some c → codes c = none →
      i < plen →
      decodeLoop payload plen (fuel + 1) result i = some (.error (.keyError c))) ∧
    (∀ (keysEq : List String → List String → Bool) (skipRaw : Bool)
      (fuel : Nat) (s s2 : List Nat) (lb : Nat) (payload s3 : List Nat) (c : Nat),
      waitForReadyState s = some (lb :: s2) → lb ≤ 169 →
      readPacket s2 lb = some (.ok payload, s3) →
      get_payload_values payload lb = some (.error (.keyError c)) →
      valuesLoop keysEq skipRaw (fuel + 1) s = ([], some (.keyError c))) := by
  refine ⟨⟨rfl, rfl, rfl, rfl⟩, ?_, ?_, ?_, ?_⟩
  · intro c
    unfold codes
    split_ifs <;> simp_all
  · intro payload plen fuel result i cb c b name hget hp hcodes hb hi
    simp only [decodeLoop, if_pos hi, hget, hp, hcodes, runRoutine,
      read_default_value, hb]
  · intro payload plen fuel result i cb c hget hp hcodes hi
    simp only [decodeLoop, if_pos hi, hget, hp, hcodes]
  · intro keysEq skipRaw fuel s s2 lb payload s3 c hw h169 hrp hgpv
    simp only [valuesLoop, hw, if_neg (show ¬169 < lb by omega), hrp, hgpv]
    simp

/-- Witness for `decode_scalar_and_unknown_code_spec`: the scalar step on
payload `02 64`, the `KeyError` on unrecognized code 7, and its
propagation through the stream loop. -/
theorem decode_scalar_and_unknown_code_spec_witness :
    decodeLoop [2, 100] 2 2 [] 0 =
      decodeLoop [2, 100] 2 1 (dictInsert [] "poor_signal" (.int 100)) 2 ∧
    decodeLoop [7] 1 1 [] 0 = some (.error (.keyError 7)) ∧
    valuesLoop py2ListEq true 1 [170, 170, 1, 7, 248] = ([], some (.keyError 7)) :=
  ⟨decode_scalar_and_unknown_code_spec.2.2.1 [2, 100] 2 1 [] 0 2 2 100
     "poor_signal" (by decide) (by decide) (by decide) (by decide) (by decide),
   decode_scalar_and_unknown_code_spec.2.2.2.1 [7] 1 0 [] 0 7 7
     (by decide) (by decide) (by decide) (by decide),
   decode_scalar_and_unknown_code_spec.2.2.2.2 py2ListEq true 0
     [170, 170, 1, 7, 248] [7, 248] 1 [7] [] 7
     (by decide) (by decide) (by decide) (by decide)⟩

/-- Every ReadingSet the stream loop emits decodes a packet that sits in
the input stream as: a length byte `lb ≤ 169`, then `lb` payload bytes,
then exactly the byte `checksum8 payload` — i.e. the checksum validated
and the declared length was within the protocol maximum. -/
theorem valuesLoop_mem (keysEq : List String → List String → Bool)
    (skipRaw : Bool) :
    ∀ fuel s d, d ∈ (valuesLoop keysEq skipRaw fuel s).1 →
      ∃ lb payload t u, lb ≤ 169 ∧ payload.length = lb ∧
        get_payload_values payload lb = some (.ok d) ∧
        s = t ++ lb :: (payload ++ checksum8 payload :: u) := by
  intro fuel
  induction fuel with
  | zero => intro s d hd; simp [valuesLoop] at hd
  | succ fuel ih =>
    intro s d hd
    simp only [valuesLoop] at hd
    cases hw : waitForReadyState s with
    | none => simp only [hw] at hd; simp at hd
    | some s1 =>
      simp only [hw] at hd
      obtain ⟨t0, hs0⟩ := waitForReadyState_suffix s s1 hw
      cases s1 with
      | nil => simp at hd
      | cons lb s2 =>
        by_cases h169 : 169 < lb
        · simp only [if_pos h169] at hd
          obtain ⟨lb2, payload2, t, u, h1, h2, h3, h4⟩ := ih s2 d hd
          refine ⟨lb2, payload2, t0 ++ lb :: t, u, h1, h2, h3, ?_⟩
          rw [hs0, h4]
          simp
        · simp only [if_neg h169] at hd
          cases hrp : readPacket s2 lb with
          | none => simp only [hrp] at hd; simp at hd
          | some pr =>
            obtain ⟨res, s3⟩ := pr
            cases res with
            | error e =>
              simp only [hrp] at hd
              by_cases he : e = PyErr.checksumFailed
              · simp only [if_pos he] at hd
                obtain ⟨t2, hs2⟩ := readPacket_err_suffix s2 lb e s3 hrp
                obtain ⟨lb2, payload2, t, u, h1, h2, h3, h4⟩ := ih s3 d hd
                refine ⟨lb2, payload2, t0 ++ lb :: (t2 ++ t), u, h1, h2, h3, ?_⟩
                rw [hs0, hs2, h4]
                simp
              · simp only [if_neg he] at hd
                simp at hd
            | ok payload =>
              simp only [hrp] at hd
              obtain ⟨hplen, hs2⟩ := readPacket_ok_decomp s2 lb payload s3 hrp
              cases hg : get_payload_values payload lb with
              | none => simp only [hg] at hd; simp at hd
              | some res2 =>
                cases res2 with
                | error e =>
                  simp only [hg] at hd
                  by_cases he : e = PyErr.checksumFailed
                  · simp only [if_pos he] at hd
                    obtain ⟨lb2, payload2, t, u, h1, h2, h3, h4⟩ := ih s3 d hd
                    refine ⟨lb2, payload2,
                      t0 ++ lb :: (payload ++ checksum8 payload :: t), u,
                      h1, h2, h3, ?_⟩
                    rw [hs0, hs2, h4]
                    simp
                  · simp only [if_neg he] at hd
                    simp at hd
                | ok result =>
                  simp only [hg] at hd
                  by_cases hskip :
                      (skipRaw && keysEq (result.map Prod.fst) ["raw_wave"]) = true
                  · simp only [if_pos hskip] at hd
                    obtain ⟨lb2, payload2, t, u, h1, h2, h3, h4⟩ := ih s3 d hd
                    refine ⟨lb2, payload2,
                      t0 ++ lb :: (payload ++ checksum8 payload :: t), u,
                      h1, h2, h3, ?_⟩
                    rw [hs0, hs2, h4]
                    simp
                  · simp only [if_neg hskip] at hd
                    simp only [List.mem_cons] at hd
                    cases hd with
                    | inl hde =>
                      subst hde
                      refine ⟨lb, payload, t0, s3, by omega, hplen, hg, ?_⟩
                      rw [hs0, hs2]
                    | inr hd2 =>
                      obtain ⟨lb2, payload2, t, u, h1, h2, h3, h4⟩ := ih s3 d hd2
                      refine ⟨lb2, payload2,
                        t0 ++ lb :: (payload ++ checksum8 payload :: t), u,
                        h1, h2, h3, ?_⟩
                      rw [hs0, hs2, h4]
                      simp

/-- The stream loop never lets `ChecksumFailed` escape: the `except`
clause catches it and resumes scanning. -/
theorem valuesLoop_no_checksum_error (keysEq : List String → List String → Bool)
    (skipRaw : Bool) :
    ∀ fuel s, (valuesLoop keysEq skipRaw fuel s).2 ≠ some PyErr.checksumFailed := by
  intro fuel
  induction fuel with
  | zero => intro s; simp [valuesLoop]
  | succ fuel ih =>
    intro s
    simp only [valuesLoop]
    cases hw : waitForReadyState s with
    | none => simp
    | some s1 =>
      cases s1 with
      | nil => simp
      | cons lb s2 =>
        by_cases h169 : 169 < lb
        · simp only [if_pos h169]
          exact ih s2
        · simp only [if_neg h169]
          cases hrp : readPacket s2 lb with
          | none => simp
          | some pr =>
            obtain ⟨res, s3⟩ := pr
            cases res with
            | error e =>
              simp only []
              by_cases he : e = PyErr.checksumFailed
              · simp only [if_pos he]
                exact ih s3
              · simp only [if_neg he]
                simp [he]
            | ok payload =>
              simp only []
              cases hg : get_payload_values payload lb with
              | none => simp
              | some res2 =>
                cases res2 with
                | error e =>
                  simp only []
                  by_cases he : e = PyErr.checksumFailed
                  · simp only [if_pos he]
                    exact ih s3
                  · simp only [if_neg he]
                    simp [he]
                | ok result =>
                  simp only []
                  by_cases hskip :
                      (skipRaw && keysEq (result.map Prod.fst) ["raw_wave"]) = true
                  · simp only [if_pos hskip]
                    exact ih s3
                  · simp only [if_neg hskip]
                    exact ih s3

/-- A declared length above 169 restarts the loop on the stream positioned
right after the length byte: no payload byte is read for that packet. -/
theorem valuesLoop_oversize_skip (keysEq : List String → List String → Bool)
    (skipRaw : Bool) (fuel : Nat) (s s2 : List Nat) (lb : Nat)
    (hw : waitForReadyState s = some (lb :: s2)) (h169 : 169 < lb) :
    valuesLoop keysEq skipRaw (fuel + 1) s = valuesLoop keysEq skipRaw fuel s2 := by
  simp only [valuesLoop, hw, if_pos h169]

/-- Claim C3: every ReadingSet the stream yields comes from a packet whose
declared length byte was at most 169, whose payload had exactly that many
bytes, whose trailing stream byte equalled the computed checksum, and
which `get_payload_values` decoded to the yielded set; the stream never
ends with `ChecksumFailed` (the error is caught and scanning resumes);
and an oversized declared length restarts synchronization immediately
after the length byte, before any payload byte is read. -/
theorem values_emission_invariant (keysEq : List String → List String → Bool)
    (skipRaw : Bool) (fuel : Nat) (s : List Nat) :
    (∀ d, d ∈ (valuesLoop keysEq skipRaw fuel s).1 →
      ∃ lb payload t u, lb ≤ 169 ∧ payload.length = lb ∧
        get_payload_values payload lb = some (.ok d) ∧
        s = t ++ lb :: (payload ++ checksum8 payload :: u)) ∧
    (valuesLoop keysEq skipRaw fuel s).2 ≠ some PyErr.checksumFailed ∧
    (∀ lb s2, waitForReadyState s = some (lb :: s2) → 169 < lb →
      valuesLoop keysEq skipRaw (fuel + 1) s = valuesLoop keysEq skipRaw fuel s2) :=
  ⟨fun d hd => valuesLoop_mem keysEq skipRaw fuel s d hd,
   valuesLoop_no_checksum_error keysEq skipRaw fuel s,
   fun lb s2 hw h169 => valuesLoop_oversize_skip keysEq skipRaw fuel s s2 lb hw h169⟩

/-- Witness for `values_emission_invariant`: the emitted poor_signal set on
a concrete valid stream, and the oversize skip on declared length 200. -/
theorem values_emission_invariant_witness :
    (∃ lb payload t u, lb ≤ 169 ∧ payload.length = lb ∧
      get_payload_values payload lb =
        some (.ok [("poor_signal", PyValue.int 100)]) ∧
      [170, 170, 2, 2, 100, 153] =
        t ++ lb :: (payload ++ checksum8 payload :: u)) ∧
    valuesLoop py2ListEq true 6 [170, 170, 200, 1, 2, 3] =
      valuesLoop py2ListEq true 5 [1, 2, 3] :=
  ⟨(values_emission_invariant py2ListEq true 6 [170, 170, 2, 2, 100, 153]).1
     [("poor_signal", PyValue.int 100)] (by decide),
   (values_emission_invariant py2ListEq true 5 [170, 170, 200, 1, 2, 3]).2.2
     200 [1, 2, 3] (by decide) (by decide)⟩

/-- Claim C6 (code bug evidence, Python 3 runtime): on line 171
`result.keys() == ['raw_wave']` compares a `dict_keys` view with a list,
which in Python 3 is always `False`, so with `skip_raw_wave` enabled a
packet decoding to the single key `raw_wave` is still yielded. -/
theorem values_py3_emits_raw_wave_only_packet :
    valuesLoop py3ViewListEq true 8 [170, 170, 4, 128, 2, 0, 1, 124] =
      ([[("raw_wave", PyValue.int 1)]], none) ∧
    (∀ a b, py3ViewListEq a b = false) :=
  ⟨by decide, fun a b => rfl⟩

/-- Under the Python 2 semantics of line 171 (`keys()` returns a list) the
same raw-wave-only packet is skipped, as the option intends. -/
theorem values_py2_skips_raw_wave_only_packet :
    valuesLoop py2ListEq true 8 [170, 170, 4, 128, 2, 0, 1, 124] = ([], none) := by
  decide
